import Mathlib

/-!
Verification of the dynamic surface-cache allocator of the Global Surface
Atlas pass (`Source/Engine/Renderer/GI/GlobalSurfaceAtlasPass.cpp`): the
rectangle packer invariants, tile sizing and refit policy of
`RasterizeActor`, the per-frame stale-object sweep, the
insertion-failure-triggered defragmentation, the culled-objects readback
status, and the culled-objects buffer growth policy.
-/

namespace FlaxAtlas

/-- An axis-aligned rectangle in atlas texel space (the `X`, `Y`, `Width`,
`Height` fields of a `RectPack` node / `GlobalSurfaceAtlasTile`). -/
structure Rect where
  x : Nat
  y : Nat
  w : Nat
  h : Nat
deriving DecidableEq

/-- Two rectangles are separated along some axis (they share no texel). -/
def Rect.disjoint (a b : Rect) : Prop :=
  a.x + a.w ≤ b.x ∨ b.x + b.w ≤ a.x ∨ a.y + a.h ≤ b.y ∨ b.y + b.h ≤ a.y

/-- Rectangle `a` is contained in rectangle `b`. -/
def Rect.inside (a b : Rect) : Prop :=
  b.x ≤ a.x ∧ a.x + a.w ≤ b.x + b.w ∧ b.y ≤ a.y ∧ a.y + a.h ≤ b.y + b.h

instance (a b : Rect) : Decidable (Rect.disjoint a b) := by
  unfold Rect.disjoint
  infer_instance

instance (a b : Rect) : Decidable (Rect.inside a b) := by
  unfold Rect.inside
  infer_instance

/-- Modelled from the spec: the repository's rectangle packer
(`Engine/Utilities/RectPack.h`, used via
`RectPack<GlobalSurfaceAtlasTile, uint16>`) is not under `src/`; spec 4.1
describes it as a deterministic first-fit binary split over free rectangles
that splits the chosen free rectangle into at most two remaining free
children and never merges on insert, with `Free` returning the rectangle to
the free set (the source packer is coalescing-free, per spec 9). A node is
either a leaf (free or holding a live tile) or an internal split node. -/
inductive PackTree where
  | leaf (r : Rect) (used : Bool)
  | split (r : Rect) (l : PackTree) (rt : PackTree)
deriving DecidableEq

/-- The rectangle covered by a packer node. -/
def PackTree.rect : PackTree → Rect
  | .leaf r _ => r
  | .split r _ _ => r

/-- Modelled from the spec (4.1): `Insert(width, height) -> Tile|null`.
First-fit descent; a fitting free leaf is split into the allocated tile, the
right remainder of its top strip and the bottom remainder, all returned to
the free set. Allocation failure returns `none` and mutates nothing. -/
def insert (w h : Nat) : PackTree → Option (Rect × PackTree)
  | .leaf r used =>
    if used then none
    else if w ≤ r.w ∧ h ≤ r.h then
      some (⟨r.x, r.y, w, h⟩,
        .split r
          (.split ⟨r.x, r.y, r.w, h⟩
            (.leaf ⟨r.x, r.y, w, h⟩ true)
            (.leaf ⟨r.x + w, r.y, r.w - w, h⟩ false))
          (.leaf ⟨r.x, r.y + h, r.w, r.h - h⟩ false))
    else none
  | .split r l rt =>
    match insert w h l with
    | some (a, l') => some (a, .split r l' rt)
    | none =>
      match insert w h rt with
      | some (a, rt') => some (a, .split r l rt')
      | none => none

/-- Modelled from the spec (4.1): `Free(tile)` marks the tile's leaf as free
again; the source packer performs no coalescing (spec 9). -/
def freeRect (fr : Rect) : PackTree → PackTree
  | .leaf r used => if r = fr then .leaf r false else .leaf r used
  | .split r l rt => .split r (freeRect fr l) (freeRect fr rt)

/-- Rectangles of all live (used) tiles in the packer. -/
def usedRects : PackTree → List Rect
  | .leaf r true => [r]
  | .leaf _ false => []
  | .split _ l rt => usedRects l ++ usedRects rt

/-- There is a leaf (free or used) covering exactly `r`. -/
def hasLeaf (r : Rect) : PackTree → Bool
  | .leaf r' _ => r' = r
  | .split _ l rt => hasLeaf r l || hasLeaf r rt

/-- There is a free leaf covering exactly `r`. -/
def hasFreeLeaf (r : Rect) : PackTree → Bool
  | .leaf r' used => !used && r' = r
  | .split _ l rt => hasFreeLeaf r l || hasFreeLeaf r rt

/-- There is a free leaf large enough for a `w × h` tile. -/
def hasFreeFit (w h : Nat) : PackTree → Bool
  | .leaf r used => !used && decide (w ≤ r.w) && decide (h ≤ r.h)
  | .split _ l rt => hasFreeFit w h l || hasFreeFit w h rt

/-- Structural well-formedness of the packer: each child covers a
sub-rectangle of its parent and siblings are disjoint. -/
inductive WF : PackTree → Prop where
  | leaf (r : Rect) (used : Bool) : WF (.leaf r used)
  | split (r : Rect) (l rt : PackTree) :
      Rect.inside l.rect r → Rect.inside rt.rect r → Rect.disjoint l.rect rt.rect →
      WF l → WF rt → WF (.split r l rt)

theorem Rect.inside_refl (a : Rect) : Rect.inside a a := by
  unfold Rect.inside
  omega

theorem Rect.inside_trans {a b c : Rect} (h1 : Rect.inside a b) (h2 : Rect.inside b c) :
    Rect.inside a c := by
  unfold Rect.inside at *
  omega

theorem Rect.disjoint_mono {a a' b b' : Rect} (ha : Rect.inside a a') (hb : Rect.inside b b')
    (hd : Rect.disjoint a' b') : Rect.disjoint a b := by
  unfold Rect.inside at *
  unfold Rect.disjoint at *
  omega

theorem usedRects_inside {t : PackTree} (hwf : WF t) :
    ∀ r ∈ usedRects t, Rect.inside r t.rect := by
  induction hwf with
  | leaf r used =>
    cases used with
    | false => simp [usedRects]
    | true =>
      intro r' hr'
      simp [usedRects] at hr'
      subst hr'
      exact Rect.inside_refl _
  | split r l rt hl hrt hd _ _ ihl ihrt =>
    intro r' hr'
    simp only [usedRects, List.mem_append] at hr'
    rcases hr' with h | h
    · exact Rect.inside_trans (ihl r' h) hl
    · exact Rect.inside_trans (ihrt r' h) hrt

theorem usedRects_pairwise {t : PackTree} (hwf : WF t) :
    (usedRects t).Pairwise Rect.disjoint := by
  induction hwf with
  | leaf r used => cases used <;> simp [usedRects]
  | split r l rt hl hrt hd hwl hwrt ihl ihrt =>
    simp only [usedRects]
    refine List.pairwise_append.mpr ⟨ihl, ihrt, ?_⟩
    intro a ha b hb
    exact Rect.disjoint_mono (usedRects_inside hwl a ha) (usedRects_inside hwrt b hb) hd

theorem insert_wf : ∀ {t : PackTree} {w h : Nat} {a : Rect} {t' : PackTree},
    WF t → insert w h t = some (a, t') → WF t' ∧ t'.rect = t.rect := by
  intro t
  induction t with
  | leaf r used =>
    intro w h a t' _ hins
    simp only [insert] at hins
    split at hins
    · exact absurd hins (by simp)
    · split at hins
      · rename_i hfit
        rw [Option.some.injEq, Prod.mk.injEq] at hins
        obtain ⟨_, ht'⟩ := hins
        subst ht'
        refine ⟨?_, rfl⟩
        refine WF.split _ _ _ ?_ ?_ ?_ ?_ (WF.leaf _ _)
        · simp only [PackTree.rect, Rect.inside]
          omega
        · simp only [PackTree.rect, Rect.inside]
          omega
        · simp only [PackTree.rect, Rect.disjoint]
          omega
        refine WF.split _ _ _ ?_ ?_ ?_ (WF.leaf _ _) (WF.leaf _ _)
        · simp only [PackTree.rect, Rect.inside]
          omega
        · simp only [PackTree.rect, Rect.inside]
          omega
        · simp only [PackTree.rect, Rect.disjoint]
          omega
      · exact absurd hins (by simp)
  | split r l rt ihl ihrt =>
    intro w h a t' hwf hins
    cases hwf with
    | split _ _ _ hil hirt hd hwl hwrt =>
      simp only [insert] at hins
      cases hl : insert w h l with
      | some p =>
        obtain ⟨a0, l'⟩ := p
        rw [hl] at hins
        simp only at hins
        rw [Option.some.injEq, Prod.mk.injEq] at hins
        obtain ⟨_, ht'⟩ := hins
        subst ht'
        obtain ⟨hwl', hrl'⟩ := ihl hwl hl
        refine ⟨WF.split _ _ _ (hrl' ▸ hil) hirt (hrl' ▸ hd) hwl' hwrt, rfl⟩
      | none =>
        rw [hl] at hins
        simp only at hins
        cases hr : insert w h rt with
        | some p =>
          obtain ⟨a0, rt'⟩ := p
          rw [hr] at hins
          simp only at hins
          rw [Option.some.injEq, Prod.mk.injEq] at hins
          obtain ⟨_, ht'⟩ := hins
          subst ht'
          obtain ⟨hwrt', hrrt'⟩ := ihrt hwrt hr
          refine ⟨WF.split _ _ _ hil (hrrt' ▸ hirt) (hrrt' ▸ hd) hwl hwrt', rfl⟩
        | none =>
          rw [hr] at hins
          exact absurd hins (by simp)

theorem freeRect_rect (fr : Rect) (t : PackTree) : (freeRect fr t).rect = t.rect := by
  cases t with
  | leaf r used =>
    simp only [freeRect]
    split <;> rfl
  | split r l rt => rfl

theorem freeRect_wf {t : PackTree} (fr : Rect) (hwf : WF t) : WF (freeRect fr t) := by
  induction hwf with
  | leaf r used =>
    simp only [freeRect]
    split <;> exact WF.leaf _ _
  | split r l rt hl hrt hd _ _ ihl ihrt =>
    simp only [freeRect]
    exact WF.split _ _ _ (freeRect_rect fr l ▸ hl) (freeRect_rect fr rt ▸ hrt)
      (freeRect_rect fr l ▸ freeRect_rect fr rt ▸ hd) ihl ihrt

/-- One atlas allocation event: a tile insertion attempt (as done by
`RasterizeActor`) or a tile free (face-skip, refit, or sweep). -/
inductive AtlasOp where
  | ins (w h : Nat)
  | free (r : Rect)

/-- Apply one operation to the packer; a failed insertion leaves the tree
unchanged. -/
def applyOp (t : PackTree) : AtlasOp → PackTree
  | .ins w h =>
    match insert w h t with
    | some (_, t') => t'
    | none => t
  | .free r => freeRect r t

/-- Run a sequence of operations from the fresh atlas root created in
`Render` (`New<GlobalSurfaceAtlasTile>(0, 0, resolution, resolution)`). -/
def runOps (res : Nat) (ops : List AtlasOp) : PackTree :=
  ops.foldl applyOp (.leaf ⟨0, 0, res, res⟩ false)

theorem applyOp_preserves {t : PackTree} (op : AtlasOp) (hwf : WF t) :
    WF (applyOp t op) ∧ (applyOp t op).rect = t.rect := by
  cases op with
  | ins w h =>
    simp only [applyOp]
    cases hins : insert w h t with
    | some p =>
      obtain ⟨a, t'⟩ := p
      exact insert_wf hwf hins
    | none => exact ⟨hwf, rfl⟩
  | free r => exact ⟨freeRect_wf r hwf, freeRect_rect r t⟩

theorem runOps_wf (res : Nat) (ops : List AtlasOp) :
    WF (runOps res ops) ∧ (runOps res ops).rect = ⟨0, 0, res, res⟩ := by
  unfold runOps
  generalize hstart : (PackTree.leaf ⟨0, 0, res, res⟩ false) = t0
  have h0 : WF t0 ∧ t0.rect = ⟨0, 0, res, res⟩ := by
    subst hstart
    exact ⟨WF.leaf _ _, rfl⟩
  clear hstart
  induction ops generalizing t0 with
  | nil => exact h0
  | cons op rest ih =>
    simp only [List.foldl_cons]
    refine ih _ ?_
    obtain ⟨hwf, hrect⟩ := h0
    obtain ⟨hwf', hrect'⟩ := applyOp_preserves op hwf
    exact ⟨hwf', hrect' ▸ hrect⟩

/-- Claim C1: for every sequence of tile `Insert` and `Free` operations on
the atlas packer (insertions from `RasterizeActor`, frees on face-skip,
refit and sweep), no two live tiles' rectangles overlap (they are pairwise
separated along an axis) and every live tile's rectangle
`(X, Y, X+Width, Y+Height)` lies within the atlas bounds `[0, resolution]`
on both axes. -/
theorem packer_live_tiles_disjoint_inbounds (res : Nat) (ops : List AtlasOp) :
    (usedRects (runOps res ops)).Pairwise Rect.disjoint ∧
    ∀ r ∈ usedRects (runOps res ops), r.x + r.w ≤ res ∧ r.y + r.h ≤ res := by
  obtain ⟨hwf, hrect⟩ := runOps_wf res ops
  refine ⟨usedRects_pairwise hwf, ?_⟩
  intro r hr
  have := usedRects_inside hwf r hr
  rw [hrect] at this
  unfold Rect.inside at this
  dsimp at this
  omega

/-- Tile sizing from `RasterizeActor`: clamp the desired resolution into
`[GLOBAL_SURFACE_ATLAS_TILE_SIZE_MIN, GLOBAL_SURFACE_ATLAS_TILE_SIZE_MAX] =
[8, 192]`, then snap it down to a multiple of 8 (`Math::Clamp` and
`Math::AlignDown` are engine utilities outside `src/`; modelled from the
spec: clamp into the range, then round down to the alignment). -/
def alignedTileRes (tileRes : Nat) : Nat :=
  (min (max tileRes 8) 192) / 8 * 8

/-- Claim C4: for every face with a desired resolution of at least 4 texels,
the resolution passed to `Insert` is a multiple of the alignment constant 8
and lies within `[TILE_SIZE_MIN, TILE_SIZE_MAX] = [8, 192]` (clamp first,
then round down). -/
theorem tile_resolution_aligned_clamped (t : Nat) (_h : 4 ≤ t) :
    alignedTileRes t % 8 = 0 ∧ 8 ≤ alignedTileRes t ∧ alignedTileRes t ≤ 192 := by
  unfold alignedTileRes
  omega

theorem tile_resolution_aligned_clamped_witness :
    4 ≤ 13 ∧ (alignedTileRes 13 % 8 = 0 ∧ 8 ≤ alignedTileRes 13 ∧ alignedTileRes 13 ≤ 192) :=
  ⟨by decide, tile_resolution_aligned_clamped 13 (by decide)⟩

/-- Input of one face iteration of the `RasterizeActor` loop: whether the
face's bit is set in `tilesMask`, and the desired tile resolution
(`boundsSizeTile.GetAbsolute().MinValue() * tilesScale` truncated to
`uint16`; the floating-point sizing is abstracted as this integer input). -/
structure FaceInput where
  inMask : Bool
  tileRes : Nat
deriving DecidableEq

/-- A `GlobalSurfaceAtlasObject` cache entry: `LastFrameUsed`,
`LastFrameDirty` and the 6 per-face tile slots (a slot holds the tile's
rectangle, `none` when null). Actor reference and bounds are omitted. -/
structure AtlasObj where
  lastFrameUsed : Nat
  lastFrameDirty : Nat
  tiles : List (Option Rect)
deriving DecidableEq

/-- Read tile slot `i` (null when out of range). -/
def tileGet (o : AtlasObj) (i : Nat) : Option Rect :=
  o.tiles.getD i none

/-- Write tile slot `i`. -/
def tileSet (o : AtlasObj) (i : Nat) (v : Option Rect) : AtlasObj :=
  { o with tiles := o.tiles.set i v }

/-- A freshly default-constructed entry (`Platform::MemoryClear`): zero
timestamps and 6 null tile slots. -/
def emptyObj : AtlasObj :=
  ⟨0, 0, List.replicate 6 none⟩

/-- State threaded through the `RasterizeActor` face loop: the object's
entry (none while no entry exists), the packer tree, the
`LastFrameAtlasInsertFail` frame, and the `anyTile`/`dirty` locals. -/
structure FaceLoopState where
  obj : Option AtlasObj
  tree : PackTree
  insertFail : Nat
  anyTile : Bool
  dirty : Bool
deriving DecidableEq

/-- The tile-insertion tail of a face iteration
(`surfaceAtlasData.AtlasTiles->Insert(...)`, lines 1039-1054): on success
the entry is created if absent and the slot is set; on failure the slot is
nulled (when an entry exists) and the failure frame is recorded. -/
def faceInsert (frame i res : Nat) (s : FaceLoopState) : FaceLoopState :=
  match insert res res s.tree with
  | some (a, t') =>
    { s with obj := some (tileSet (s.obj.getD emptyObj) i (some a)), tree := t',
             anyTile := true, dirty := true }
  | none =>
    { s with obj := s.obj.map (fun o => tileSet o i none), insertFail := frame }

/-- One iteration of the per-face loop of `RasterizeActor`
(lines 999-1054): skip faces outside `tilesMask`; faces below 4 texels free
their tile; existing tiles within the 32-texel refit band are kept;
otherwise the old tile is freed and a fresh insertion is attempted at the
clamped, aligned resolution. -/
def processFace (frame i : Nat) (f : FaceInput) (s : FaceLoopState) : FaceLoopState :=
  if f.inMask = false then s
  else if f.tileRes < 4 then
    match s.obj with
    | some o =>
      match tileGet o i with
      | some r => { s with obj := some (tileSet o i none), tree := freeRect r s.tree }
      | none => s
    | none => s
  else
    let res := alignedTileRes f.tileRes
    match s.obj with
    | some o =>
      match tileGet o i with
      | some r =>
        if ((res : Int) - (r.w : Int)).natAbs < 32 then
          { s with anyTile := true }
        else
          faceInsert frame i res { s with tree := freeRect r s.tree }
      | none => faceInsert frame i res s
    | none => faceInsert frame i res s

/-- Claim C6: a face whose desired resolution is below the minimum-useful
threshold of 4 texels frees any existing tile, nulls its slot, and attempts
no insertion (the state is otherwise untouched: the tree changes only by
the free, and `insertFail`, `anyTile`, `dirty` are unchanged). -/
theorem small_face_frees_tile (frame i : Nat) (f : FaceInput) (s : FaceLoopState)
    (o : AtlasObj) (r : Rect) (hmask : f.inMask = true) (hres : f.tileRes < 4)
    (hobj : s.obj = some o) (htile : tileGet o i = some r) :
    processFace frame i f s = { s with obj := some (tileSet o i none), tree := freeRect r s.tree } := by
  simp only [processFace, hmask, hres, hobj, htile, if_true, if_false]
  simp

theorem small_face_frees_tile_witness :
    (FaceInput.mk true 2).inMask = true ∧ (FaceInput.mk true 2).tileRes < 4 ∧
    (FaceLoopState.mk (some ⟨5, 3, [some ⟨0, 0, 16, 16⟩, none, none, none, none, none]⟩)
        (.split ⟨0, 0, 64, 64⟩ (.leaf ⟨0, 0, 16, 16⟩ true) (.leaf ⟨16, 0, 48, 64⟩ false)) 0 false false).obj
      = some ⟨5, 3, [some ⟨0, 0, 16, 16⟩, none, none, none, none, none]⟩ ∧
    tileGet ⟨5, 3, [some ⟨0, 0, 16, 16⟩, none, none, none, none, none]⟩ 0 = some ⟨0, 0, 16, 16⟩ ∧
    processFace 7 0 (FaceInput.mk true 2)
        (FaceLoopState.mk (some ⟨5, 3, [some ⟨0, 0, 16, 16⟩, none, none, none, none, none]⟩)
          (.split ⟨0, 0, 64, 64⟩ (.leaf ⟨0, 0, 16, 16⟩ true) (.leaf ⟨16, 0, 48, 64⟩ false)) 0 false false)
      = { FaceLoopState.mk (some ⟨5, 3, [some ⟨0, 0, 16, 16⟩, none, none, none, none, none]⟩)
            (.split ⟨0, 0, 64, 64⟩ (.leaf ⟨0, 0, 16, 16⟩ true) (.leaf ⟨16, 0, 48, 64⟩ false)) 0 false false with
          obj := some (tileSet ⟨5, 3, [some ⟨0, 0, 16, 16⟩, none, none, none, none, none]⟩ 0 none),
          tree := freeRect ⟨0, 0, 16, 16⟩
            (.split ⟨0, 0, 64, 64⟩ (.leaf ⟨0, 0, 16, 16⟩ true) (.leaf ⟨16, 0, 48, 64⟩ false)) } :=
  ⟨rfl, by decide, rfl, rfl,
    small_face_frees_tile 7 0 _ _ _ _ rfl (by decide) rfl rfl⟩

/-- Claim C5: for a face that already owns a tile and passes the 4-texel
threshold, if the newly computed aligned resolution differs from the tile's
current width by less than the refit step of 32 texels, the whole state is
unchanged except `anyTile` (no free, no re-insert, no dirty from this
face); otherwise the old tile is freed and a fresh `Insert` is attempted at
the new resolution. -/
theorem tile_refit_hysteresis (frame i : Nat) (f : FaceInput) (s : FaceLoopState)
    (o : AtlasObj) (r : Rect) (hmask : f.inMask = true) (hres : 4 ≤ f.tileRes)
    (hobj : s.obj = some o) (htile : tileGet o i = some r) :
    (((alignedTileRes f.tileRes : Int) - (r.w : Int)).natAbs < 32 →
      processFace frame i f s = { s with anyTile := true }) ∧
    (32 ≤ ((alignedTileRes f.tileRes : Int) - (r.w : Int)).natAbs →
      match insert (alignedTileRes f.tileRes) (alignedTileRes f.tileRes) (freeRect r s.tree) with
      | some (a, t') => processFace frame i f s =
          { s with obj := some (tileSet o i (some a)), tree := t', anyTile := true, dirty := true }
      | none => processFace frame i f s =
          { s with obj := some (tileSet o i none), tree := freeRect r s.tree, insertFail := frame }) := by
  have hres' : ¬f.tileRes < 4 := by omega
  constructor
  · intro hband
    simp only [processFace, hmask, hres', hobj, htile, if_false, hband, if_true]
    simp
  · intro hband
    have hband' : ¬((alignedTileRes f.tileRes : Int) - (r.w : Int)).natAbs < 32 := by omega
    simp only [processFace, hmask, hres', hobj, htile, if_false, hband', faceInsert]
    cases hins : insert (alignedTileRes f.tileRes) (alignedTileRes f.tileRes) (freeRect r s.tree) with
    | some p =>
      obtain ⟨a, t'⟩ := p
      simp [hins]
    | none => simp [hins]

theorem tile_refit_hysteresis_witness :
    (FaceInput.mk true 100).inMask = true ∧ 4 ≤ (FaceInput.mk true 100).tileRes ∧
    (FaceLoopState.mk (some ⟨9, 2, [none, some ⟨0, 0, 96, 96⟩, none, none, none, none]⟩)
        (.leaf ⟨0, 0, 256, 256⟩ false) 0 false false).obj
      = some ⟨9, 2, [none, some ⟨0, 0, 96, 96⟩, none, none, none, none]⟩ ∧
    tileGet ⟨9, 2, [none, some ⟨0, 0, 96, 96⟩, none, none, none, none]⟩ 1 = some ⟨0, 0, 96, 96⟩ ∧
    ((((alignedTileRes (FaceInput.mk true 100).tileRes : Int) - ((96 : Nat) : Int)).natAbs < 32 →
      processFace 11 1 (FaceInput.mk true 100)
          (FaceLoopState.mk (some ⟨9, 2, [none, some ⟨0, 0, 96, 96⟩, none, none, none, none]⟩)
            (.leaf ⟨0, 0, 256, 256⟩ false) 0 false false)
        = { FaceLoopState.mk (some ⟨9, 2, [none, some ⟨0, 0, 96, 96⟩, none, none, none, none]⟩)
              (.leaf ⟨0, 0, 256, 256⟩ false) 0 false false with anyTile := true }) ∧
    (32 ≤ (((alignedTileRes (FaceInput.mk true 100).tileRes : Int) - ((96 : Nat) : Int)).natAbs) →
      match insert (alignedTileRes (FaceInput.mk true 100).tileRes)
          (alignedTileRes (FaceInput.mk true 100).tileRes)
          (freeRect ⟨0, 0, 96, 96⟩ (.leaf ⟨0, 0, 256, 256⟩ false)) with
      | some (a, t') => processFace 11 1 (FaceInput.mk true 100)
            (FaceLoopState.mk (some ⟨9, 2, [none, some ⟨0, 0, 96, 96⟩, none, none, none, none]⟩)
              (.leaf ⟨0, 0, 256, 256⟩ false) 0 false false)
          = { FaceLoopState.mk (some ⟨9, 2, [none, some ⟨0, 0, 96, 96⟩, none, none, none, none]⟩)
                (.leaf ⟨0, 0, 256, 256⟩ false) 0 false false with
              obj := some (tileSet ⟨9, 2, [none, some ⟨0, 0, 96, 96⟩, none, none, none, none]⟩ 1 (some a)),
              tree := t', anyTile := true, dirty := true }
      | none => processFace 11 1 (FaceInput.mk true 100)
            (FaceLoopState.mk (some ⟨9, 2, [none, some ⟨0, 0, 96, 96⟩, none, none, none, none]⟩)
              (.leaf ⟨0, 0, 256, 256⟩ false) 0 false false)
          = { FaceLoopState.mk (some ⟨9, 2, [none, some ⟨0, 0, 96, 96⟩, none, none, none, none]⟩)
                (.leaf ⟨0, 0, 256, 256⟩ false) 0 false false with
              obj := some (tileSet ⟨9, 2, [none, some ⟨0, 0, 96, 96⟩, none, none, none, none]⟩ 1 none),
              tree := freeRect ⟨0, 0, 96, 96⟩ (.leaf ⟨0, 0, 256, 256⟩ false), insertFail := 11 })) :=
  ⟨rfl, by decide, rfl, rfl,
    tile_refit_hysteresis 11 1 (FaceInput.mk true 100)
      (FaceLoopState.mk (some ⟨9, 2, [none, some ⟨0, 0, 96, 96⟩, none, none, none, none]⟩)
        (.leaf ⟨0, 0, 256, 256⟩ false) 0 false false)
      ⟨9, 2, [none, some ⟨0, 0, 96, 96⟩, none, none, none, none]⟩ ⟨0, 0, 96, 96⟩
      rfl (by decide) rfl (by decide)⟩

/-- The full face loop of `RasterizeActor`, iterating `tileIndex` from 0. -/
def processFaces (frame : Nat) : Nat → List FaceInput → FaceLoopState → FaceLoopState
  | _, [], s => s
  | i, f :: rest, s => processFaces frame (i + 1) rest (processFace frame i f s)

/-- The object cache (`Dictionary<void*, GlobalSurfaceAtlasObject> Objects`),
as an association list with opaque handles as keys. -/
def cacheGet (k : Nat) : List (Nat × AtlasObj) → Option AtlasObj
  | [] => none
  | (k', v) :: rest => if k' = k then some v else cacheGet k rest

/-- Insert-or-replace the entry for handle `k` (`Dictionary::operator[]`). -/
def cacheSet (k : Nat) (v : AtlasObj) : List (Nat × AtlasObj) → List (Nat × AtlasObj)
  | [] => [(k, v)]
  | (k', v') :: rest => if k' = k then (k, v) :: rest else (k', v') :: cacheSet k v rest

/-- The mutable atlas state touched by `RasterizeActor`: the object cache,
the packer tree (`AtlasTiles`), `LastFrameAtlasInsertFail`, and the frame's
`_dirtyObjectsBuffer`. -/
structure RasterState where
  objects : List (Nat × AtlasObj)
  tree : PackTree
  insertFail : Nat
  dirtyList : List Nat
deriving DecidableEq

/-- The staggered redraw period of `RasterizeActor` (lines 1060-1061):
120 frames for actors with the static-lightmap flag, 4 otherwise, plus the
bitwise-and of the actor identifier hash with that base. -/
def redrawPeriod (isStatic : Bool) (idHash : Nat) : Nat :=
  (if isStatic then 120 else 4) + (idHash &&& (if isStatic then 120 else 4))

/-- Model of `GlobalSurfaceAtlasPass::RasterizeActor` (lines 991-1074): run the face
loop from the object's current entry; without any tile, return after the
loop's mutations (the entry, when it exists, keeps its old timestamps);
otherwise apply the time-sliced redraw check, mark the entry used this
frame, and record it in the dirty-objects buffer when dirty. -/
def rasterizeActor (frame k : Nat) (faces : List FaceInput) (isStatic : Bool) (idHash : Nat)
    (st : RasterState) : RasterState :=
  let s1 := processFaces frame 0 faces ⟨cacheGet k st.objects, st.tree, st.insertFail, false, false⟩
  match s1.obj with
  | none => { st with tree := s1.tree, insertFail := s1.insertFail }
  | some o =>
    if s1.anyTile = false then
      { st with objects := cacheSet k o st.objects, tree := s1.tree, insertFail := s1.insertFail }
    else
      let dirty := s1.dirty || decide (redrawPeriod isStatic idHash ≤ frame - o.lastFrameDirty)
      let o2 := { o with lastFrameUsed := frame,
                         lastFrameDirty := if dirty then frame else o.lastFrameDirty }
      { st with objects := cacheSet k o2 st.objects, tree := s1.tree, insertFail := s1.insertFail,
                dirtyList := if dirty then st.dirtyList ++ [k] else st.dirtyList }

theorem cacheGet_cacheSet (k : Nat) (v : AtlasObj) (objs : List (Nat × AtlasObj)) :
    cacheGet k (cacheSet k v objs) = some v := by
  induction objs with
  | nil => simp [cacheSet, cacheGet]
  | cons p rest ih =>
    obtain ⟨k', v'⟩ := p
    by_cases h : k' = k
    · simp [cacheSet, cacheGet, h]
    · simp [cacheSet, cacheGet, h, ih]

/-- Claim C8: an object with at least one tile after face processing is
redrawn on a time-sliced schedule: with a base redraw period of 120 frames
for static-lightmap actors and 4 otherwise, staggered by the bitwise-and of
the per-actor identifier hash, the object is marked dirty this frame
(timestamped and added to the dirty-objects buffer) whenever the frames
elapsed since its `LastFrameDirty` reach or exceed the staggered period,
regardless of any resolution change. -/
theorem redraw_period_marks_dirty (frame k : Nat) (faces : List FaceInput) (isStatic : Bool)
    (idHash : Nat) (st : RasterState) (s1 : FaceLoopState) (o : AtlasObj)
    (hrun : processFaces frame 0 faces ⟨cacheGet k st.objects, st.tree, st.insertFail, false, false⟩ = s1)
    (hobj : s1.obj = some o) (hany : s1.anyTile = true)
    (hperiod : redrawPeriod isStatic idHash ≤ frame - o.lastFrameDirty) :
    ∃ o2, cacheGet k (rasterizeActor frame k faces isStatic idHash st).objects = some o2 ∧
      o2.lastFrameUsed = frame ∧ o2.lastFrameDirty = frame ∧ o2.tiles = o.tiles ∧
      k ∈ (rasterizeActor frame k faces isStatic idHash st).dirtyList := by
  have hdec : decide (redrawPeriod isStatic idHash ≤ frame - o.lastFrameDirty) = true :=
    decide_eq_true hperiod
  simp [rasterizeActor, hrun, hobj, hany, hdec]
  exact ⟨_, cacheGet_cacheSet k _ st.objects, rfl, rfl, rfl⟩

theorem redraw_period_marks_dirty_witness :
    processFaces 200 0 [FaceInput.mk true 100]
        ⟨cacheGet 1 (RasterState.mk [] (.leaf ⟨0, 0, 256, 256⟩ false) 0 []).objects,
          (RasterState.mk [] (.leaf ⟨0, 0, 256, 256⟩ false) 0 []).tree,
          (RasterState.mk [] (.leaf ⟨0, 0, 256, 256⟩ false) 0 []).insertFail, false, false⟩
      = ⟨some ⟨0, 0, [some ⟨0, 0, 96, 96⟩, none, none, none, none, none]⟩,
          .split ⟨0, 0, 256, 256⟩
            (.split ⟨0, 0, 256, 96⟩ (.leaf ⟨0, 0, 96, 96⟩ true) (.leaf ⟨96, 0, 160, 96⟩ false))
            (.leaf ⟨0, 96, 256, 160⟩ false), 0, true, true⟩ ∧
    (FaceLoopState.mk (some ⟨0, 0, [some ⟨0, 0, 96, 96⟩, none, none, none, none, none]⟩)
        (.split ⟨0, 0, 256, 256⟩
          (.split ⟨0, 0, 256, 96⟩ (.leaf ⟨0, 0, 96, 96⟩ true) (.leaf ⟨96, 0, 160, 96⟩ false))
          (.leaf ⟨0, 96, 256, 160⟩ false)) 0 true true).obj
      = some ⟨0, 0, [some ⟨0, 0, 96, 96⟩, none, none, none, none, none]⟩ ∧
    (FaceLoopState.mk (some ⟨0, 0, [some ⟨0, 0, 96, 96⟩, none, none, none, none, none]⟩)
        (.split ⟨0, 0, 256, 256⟩
          (.split ⟨0, 0, 256, 96⟩ (.leaf ⟨0, 0, 96, 96⟩ true) (.leaf ⟨96, 0, 160, 96⟩ false))
          (.leaf ⟨0, 96, 256, 160⟩ false)) 0 true true).anyTile = true ∧
    redrawPeriod false 3 ≤ 200 - (AtlasObj.mk 0 0 [some ⟨0, 0, 96, 96⟩, none, none, none, none, none]).lastFrameDirty ∧
    (∃ o2, cacheGet 1 (rasterizeActor 200 1 [FaceInput.mk true 100] false 3
          (RasterState.mk [] (.leaf ⟨0, 0, 256, 256⟩ false) 0 [])).objects = some o2 ∧
      o2.lastFrameUsed = 200 ∧ o2.lastFrameDirty = 200 ∧
      o2.tiles = (AtlasObj.mk 0 0 [some ⟨0, 0, 96, 96⟩, none, none, none, none, none]).tiles ∧
      1 ∈ (rasterizeActor 200 1 [FaceInput.mk true 100] false 3
          (RasterState.mk [] (.leaf ⟨0, 0, 256, 256⟩ false) 0 [])).dirtyList) :=
  ⟨by decide, rfl, rfl, by decide,
    redraw_period_marks_dirty 200 1 [FaceInput.mk true 100] false 3
      (RasterState.mk [] (.leaf ⟨0, 0, 256, 256⟩ false) 0 [])
      ⟨some ⟨0, 0, [some ⟨0, 0, 96, 96⟩, none, none, none, none, none]⟩,
        .split ⟨0, 0, 256, 256⟩
          (.split ⟨0, 0, 256, 96⟩ (.leaf ⟨0, 0, 96, 96⟩ true) (.leaf ⟨96, 0, 160, 96⟩ false))
          (.leaf ⟨0, 96, 256, 160⟩ false), 0, true, true⟩
      ⟨0, 0, [some ⟨0, 0, 96, 96⟩, none, none, none, none, none]⟩
      (by decide) rfl rfl (by decide)⟩

/-- Free every non-null tile of an entry back to the packer (the inner loop
of the removal pass). -/
def freeTiles : List (Option Rect) → PackTree → PackTree
  | [], t => t
  | none :: rest, t => freeTiles rest t
  | some r :: rest, t => freeTiles rest (freeRect r t)

/-- The per-frame removal pass of `Render` (lines 460-472): every entry
whose `LastFrameUsed` differs from the current frame is removed and its
non-null tiles are freed; the others are kept as they are. -/
def sweepObjects (frame : Nat) : List (Nat × AtlasObj) → PackTree → List (Nat × AtlasObj) × PackTree
  | [], t => ([], t)
  | (k, o) :: rest, t =>
    if o.lastFrameUsed ≠ frame then
      sweepObjects frame rest (freeTiles o.tiles t)
    else
      ((k, o) :: (sweepObjects frame rest t).1, (sweepObjects frame rest t).2)

theorem getD_some_mem {l : List (Option Rect)} {i : Nat} {r : Rect}
    (h : l.getD i none = some r) : some r ∈ l := by
  induction l generalizing i with
  | nil => simp [List.getD] at h
  | cons a rest ih =>
    cases i with
    | zero =>
      rw [List.getD_cons_zero] at h
      exact h ▸ List.mem_cons_self a rest
    | succ n =>
      rw [List.getD_cons_succ] at h
      exact List.mem_cons_of_mem _ (ih h)

theorem hasLeaf_freeRect (r fr : Rect) (t : PackTree) :
    hasLeaf r (freeRect fr t) = hasLeaf r t := by
  induction t with
  | leaf r' used =>
    simp only [freeRect]
    split <;> simp [hasLeaf]
  | split r0 l rt ihl ihrt => simp [freeRect, hasLeaf, ihl, ihrt]

theorem hasFreeLeaf_freeRect_mono {r : Rect} (fr : Rect) {t : PackTree}
    (h : hasFreeLeaf r t = true) : hasFreeLeaf r (freeRect fr t) = true := by
  induction t with
  | leaf r' used =>
    simp only [hasFreeLeaf, Bool.and_eq_true, Bool.not_eq_true'] at h
    simp only [freeRect]
    split <;> simp [hasFreeLeaf, h.1, h.2]
  | split r0 l rt ihl ihrt =>
    simp only [hasFreeLeaf, Bool.or_eq_true] at h ⊢
    rcases h with h | h
    · exact Or.inl (ihl h)
    · exact Or.inr (ihrt h)

theorem hasFreeLeaf_freeRect_self {r : Rect} {t : PackTree} (h : hasLeaf r t = true) :
    hasFreeLeaf r (freeRect r t) = true := by
  induction t with
  | leaf r' used =>
    simp only [hasLeaf, decide_eq_true_eq] at h
    subst h
    simp [freeRect, hasFreeLeaf]
  | split r0 l rt ihl ihrt =>
    simp only [hasLeaf, Bool.or_eq_true] at h
    simp only [freeRect, hasFreeLeaf, Bool.or_eq_true]
    rcases h with h | h
    · exact Or.inl (ihl h)
    · exact Or.inr (ihrt h)

theorem hasFreeLeaf_freeTiles_mono {r : Rect} (tiles : List (Option Rect)) {t : PackTree}
    (h : hasFreeLeaf r t = true) : hasFreeLeaf r (freeTiles tiles t) = true := by
  induction tiles generalizing t with
  | nil => exact h
  | cons a rest ih =>
    cases a with
    | none => exact ih h
    | some fr => exact ih (hasFreeLeaf_freeRect_mono fr h)

theorem hasLeaf_freeTiles (r : Rect) (tiles : List (Option Rect)) (t : PackTree) :
    hasLeaf r (freeTiles tiles t) = hasLeaf r t := by
  induction tiles generalizing t with
  | nil => rfl
  | cons a rest ih =>
    cases a with
    | none => exact ih t
    | some fr => rw [show freeTiles (some fr :: rest) t = freeTiles rest (freeRect fr t) from rfl,
        ih, hasLeaf_freeRect]

theorem freeTiles_frees {r : Rect} {tiles : List (Option Rect)} {t : PackTree}
    (hmem : some r ∈ tiles) (hleaf : hasLeaf r t = true) :
    hasFreeLeaf r (freeTiles tiles t) = true := by
  induction tiles generalizing t with
  | nil => cases hmem
  | cons a rest ih =>
    rcases List.mem_cons.mp hmem with heq | htail
    · rw [show a = some r from heq.symm]
      exact hasFreeLeaf_freeTiles_mono rest (hasFreeLeaf_freeRect_self hleaf)
    · cases a with
      | none => exact ih htail hleaf
      | some fr => exact ih htail (by rw [hasLeaf_freeRect]; exact hleaf)

theorem hasFreeFit_of_freeLeaf {r : Rect} {t : PackTree} {w h : Nat}
    (hl : hasFreeLeaf r t = true) (hw : w ≤ r.w) (hh : h ≤ r.h) :
    hasFreeFit w h t = true := by
  induction t with
  | leaf r' used =>
    simp only [hasFreeLeaf, Bool.and_eq_true, Bool.not_eq_true', decide_eq_true_eq] at hl
    obtain ⟨hu, hr⟩ := hl
    subst hr
    simp [hasFreeFit, hu, hw, hh]
  | split r0 l rt ihl ihrt =>
    simp only [hasFreeLeaf, Bool.or_eq_true] at hl
    simp only [hasFreeFit, Bool.or_eq_true]
    rcases hl with h1 | h1
    · exact Or.inl (ihl h1)
    · exact Or.inr (ihrt h1)

theorem insert_isSome_of_fit {w h : Nat} {t : PackTree} (hf : hasFreeFit w h t = true) :
    (insert w h t).isSome = true := by
  induction t with
  | leaf r used =>
    simp only [hasFreeFit, Bool.and_eq_true, Bool.not_eq_true', decide_eq_true_eq] at hf
    obtain ⟨⟨hu, hw⟩, hh⟩ := hf
    simp [insert, hu, hw, hh]
  | split r0 l rt ihl ihrt =>
    simp only [hasFreeFit, Bool.or_eq_true] at hf
    simp only [insert]
    cases hl : insert w h l with
    | some p =>
      obtain ⟨a, l'⟩ := p
      simp
    | none =>
      rcases hf with h1 | h1
      · have := ihl h1
        rw [hl] at this
        simp at this
      · cases hr : insert w h rt with
        | some p =>
          obtain ⟨a, rt'⟩ := p
          simp
        | none =>
          have := ihrt h1
          rw [hr] at this
          simp at this

theorem sweep_mem {frame : Nat} {cache : List (Nat × AtlasObj)} {t : PackTree}
    {k2 : Nat} {o2 : AtlasObj} (h : (k2, o2) ∈ (sweepObjects frame cache t).1) :
    (k2, o2) ∈ cache ∧ o2.lastFrameUsed = frame := by
  induction cache generalizing t with
  | nil => cases h
  | cons p rest ih =>
    obtain ⟨k1, o1⟩ := p
    by_cases hst : o1.lastFrameUsed ≠ frame
    · rw [show sweepObjects frame ((k1, o1) :: rest) t
          = sweepObjects frame rest (freeTiles o1.tiles t) from by
        simp [sweepObjects, hst]] at h
      obtain ⟨hm, hf⟩ := ih h
      exact ⟨List.mem_cons_of_mem _ hm, hf⟩
    · rw [show sweepObjects frame ((k1, o1) :: rest) t
          = ((k1, o1) :: (sweepObjects frame rest t).1, (sweepObjects frame rest t).2) from by
        simp [sweepObjects, hst]] at h
      rcases List.mem_cons.mp h with heq | htail
      · constructor
        · rw [heq]
          exact List.mem_cons_self _ _
        · injection heq with _ ho
          rw [ho]
          exact not_not.mp hst
      · obtain ⟨hm, hf⟩ := ih htail
        exact ⟨List.mem_cons_of_mem _ hm, hf⟩

theorem sweep_keeps {frame : Nat} {cache : List (Nat × AtlasObj)} {t : PackTree}
    {k2 : Nat} {o2 : AtlasObj} (hm : (k2, o2) ∈ cache) (hf : o2.lastFrameUsed = frame) :
    (k2, o2) ∈ (sweepObjects frame cache t).1 := by
  induction cache generalizing t with
  | nil => cases hm
  | cons p rest ih =>
    obtain ⟨k1, o1⟩ := p
    by_cases hst : o1.lastFrameUsed ≠ frame
    · rw [show sweepObjects frame ((k1, o1) :: rest) t
          = sweepObjects frame rest (freeTiles o1.tiles t) from by
        simp [sweepObjects, hst]]
      rcases List.mem_cons.mp hm with heq | htail
      · exfalso
        apply hst
        injection heq with h1 h2
        rw [← h2]
        exact hf
      · exact ih htail
    · rw [show sweepObjects frame ((k1, o1) :: rest) t
          = ((k1, o1) :: (sweepObjects frame rest t).1, (sweepObjects frame rest t).2) from by
        simp [sweepObjects, hst]]
      rcases List.mem_cons.mp hm with heq | htail
      · exact heq ▸ List.mem_cons_self _ _
      · exact List.mem_cons_of_mem _ (ih htail)

theorem sweep_freeLeaf_mono {frame : Nat} {r : Rect} {cache : List (Nat × AtlasObj)}
    {t : PackTree} (h : hasFreeLeaf r t = true) :
    hasFreeLeaf r (sweepObjects frame cache t).2 = true := by
  induction cache generalizing t with
  | nil => exact h
  | cons p rest ih =>
    obtain ⟨k1, o1⟩ := p
    by_cases hst : o1.lastFrameUsed ≠ frame
    · rw [show sweepObjects frame ((k1, o1) :: rest) t
          = sweepObjects frame rest (freeTiles o1.tiles t) from by
        simp [sweepObjects, hst]]
      exact ih (hasFreeLeaf_freeTiles_mono o1.tiles h)
    · rw [show sweepObjects frame ((k1, o1) :: rest) t
          = ((k1, o1) :: (sweepObjects frame rest t).1, (sweepObjects frame rest t).2) from by
        simp [sweepObjects, hst]]
      exact ih h

theorem sweep_frees {frame k : Nat} {o : AtlasObj} {r : Rect} {cache : List (Nat × AtlasObj)}
    {t : PackTree} (hmem : (k, o) ∈ cache) (hstale : o.lastFrameUsed ≠ frame)
    (hsome : some r ∈ o.tiles) (hleaf : hasLeaf r t = true) :
    hasFreeLeaf r (sweepObjects frame cache t).2 = true := by
  induction cache generalizing t with
  | nil => cases hmem
  | cons p rest ih =>
    obtain ⟨k1, o1⟩ := p
    rcases List.mem_cons.mp hmem with heq | htail
    · injection heq with h1 h2
      subst h1
      subst h2
      rw [show sweepObjects frame ((k, o) :: rest) t
          = sweepObjects frame rest (freeTiles o.tiles t) from by
        simp [sweepObjects, hstale]]
      exact sweep_freeLeaf_mono (freeTiles_frees hsome hleaf)
    · by_cases hst : o1.lastFrameUsed ≠ frame
      · rw [show sweepObjects frame ((k1, o1) :: rest) t
            = sweepObjects frame rest (freeTiles o1.tiles t) from by
          simp [sweepObjects, hst]]
        exact ih htail (by rw [hasLeaf_freeTiles]; exact hleaf)
      · rw [show sweepObjects frame ((k1, o1) :: rest) t
            = ((k1, o1) :: (sweepObjects frame rest t).1, (sweepObjects frame rest t).2) from by
          simp [sweepObjects, hst]]
        exact ih htail hleaf

theorem key_unique {cache : List (Nat × AtlasObj)} {k : Nat} {o o2 : AtlasObj}
    (hnd : (cache.map Prod.fst).Nodup) (h1 : (k, o) ∈ cache) (h2 : (k, o2) ∈ cache) :
    o2 = o := by
  induction cache with
  | nil => cases h1
  | cons p rest ih =>
    obtain ⟨k1, o1⟩ := p
    simp only [List.map_cons, List.nodup_cons] at hnd
    rcases List.mem_cons.mp h1 with h1h | h1t
    · rcases List.mem_cons.mp h2 with h2h | h2t
      · rw [← h1h] at h2h
        injection h2h
      · exfalso
        injection h1h with hk _
        apply hnd.1
        rw [← hk]
        exact List.mem_map_of_mem Prod.fst h2t
    · rcases List.mem_cons.mp h2 with h2h | h2t
      · exfalso
        injection h2h with hk _
        apply hnd.1
        rw [← hk]
        exact List.mem_map_of_mem Prod.fst h1t
      · exact ih hnd.2 h1t h2t

/-- Claim C3: an entry whose `LastFrameUsed` is not the current frame is
removed by the removal pass, every one of its non-null tiles is freed back
to the packer so that its rectangle is insertable again by a tile of
equal-or-smaller size, while entries used this frame are kept unchanged. -/
theorem sweep_removes_stale_and_frees_tiles (frame : Nat) (cache : List (Nat × AtlasObj))
    (t : PackTree) (k : Nat) (o : AtlasObj) (i : Nat) (r : Rect) (w' h' : Nat)
    (hnd : (cache.map Prod.fst).Nodup) (hmem : (k, o) ∈ cache)
    (hstale : o.lastFrameUsed ≠ frame) (htile : tileGet o i = some r)
    (hleaf : hasLeaf r t = true) (hw : w' ≤ r.w) (hh : h' ≤ r.h) :
    k ∉ (sweepObjects frame cache t).1.map Prod.fst ∧
    (insert w' h' (sweepObjects frame cache t).2).isSome = true ∧
    ∀ k2 o2, (k2, o2) ∈ cache → o2.lastFrameUsed = frame →
      (k2, o2) ∈ (sweepObjects frame cache t).1 := by
  refine ⟨?_, ?_, ?_⟩
  · intro hk
    obtain ⟨p, hp, hfst⟩ := List.mem_map.mp hk
    obtain ⟨k2, o2⟩ := p
    dsimp at hfst
    subst hfst
    obtain ⟨hm, hf⟩ := sweep_mem hp
    exact hstale (key_unique hnd hmem hm ▸ hf)
  · exact insert_isSome_of_fit
      (hasFreeFit_of_freeLeaf (sweep_frees hmem hstale (getD_some_mem htile) hleaf) hw hh)
  · intro k2 o2 hm hf
    exact sweep_keeps hm hf

theorem sweep_removes_stale_and_frees_tiles_witness :
    ([(5, AtlasObj.mk 3 2 [some ⟨0, 0, 32, 32⟩, none, none, none, none, none])].map Prod.fst).Nodup ∧
    (5, AtlasObj.mk 3 2 [some ⟨0, 0, 32, 32⟩, none, none, none, none, none])
      ∈ [(5, AtlasObj.mk 3 2 [some ⟨0, 0, 32, 32⟩, none, none, none, none, none])] ∧
    (AtlasObj.mk 3 2 [some ⟨0, 0, 32, 32⟩, none, none, none, none, none]).lastFrameUsed ≠ 10 ∧
    tileGet (AtlasObj.mk 3 2 [some ⟨0, 0, 32, 32⟩, none, none, none, none, none]) 0 = some ⟨0, 0, 32, 32⟩ ∧
    hasLeaf ⟨0, 0, 32, 32⟩ (.split ⟨0, 0, 64, 64⟩ (.leaf ⟨0, 0, 32, 32⟩ true) (.leaf ⟨32, 0, 32, 64⟩ false)) = true ∧
    (16 ≤ (32 : Nat) ∧ 16 ≤ (32 : Nat)) ∧
    (5 ∉ (sweepObjects 10 [(5, AtlasObj.mk 3 2 [some ⟨0, 0, 32, 32⟩, none, none, none, none, none])]
        (.split ⟨0, 0, 64, 64⟩ (.leaf ⟨0, 0, 32, 32⟩ true) (.leaf ⟨32, 0, 32, 64⟩ false))).1.map Prod.fst ∧
      (insert 16 16 (sweepObjects 10 [(5, AtlasObj.mk 3 2 [some ⟨0, 0, 32, 32⟩, none, none, none, none, none])]
        (.split ⟨0, 0, 64, 64⟩ (.leaf ⟨0, 0, 32, 32⟩ true) (.leaf ⟨32, 0, 32, 64⟩ false))).2).isSome = true ∧
      ∀ k2 o2, (k2, o2) ∈ [(5, AtlasObj.mk 3 2 [some ⟨0, 0, 32, 32⟩, none, none, none, none, none])] →
        o2.lastFrameUsed = 10 →
        (k2, o2) ∈ (sweepObjects 10 [(5, AtlasObj.mk 3 2 [some ⟨0, 0, 32, 32⟩, none, none, none, none, none])]
          (.split ⟨0, 0, 64, 64⟩ (.leaf ⟨0, 0, 32, 32⟩ true) (.leaf ⟨32, 0, 32, 64⟩ false))).1) :=
  ⟨by decide, by decide, by decide, by decide, by decide, ⟨by decide, by decide⟩,
    sweep_removes_stale_and_frees_tiles 10
      [(5, AtlasObj.mk 3 2 [some ⟨0, 0, 32, 32⟩, none, none, none, none, none])]
      (.split ⟨0, 0, 64, 64⟩ (.leaf ⟨0, 0, 32, 32⟩ true) (.leaf ⟨32, 0, 32, 64⟩ false))
      5 (AtlasObj.mk 3 2 [some ⟨0, 0, 32, 32⟩, none, none, none, none, none]) 0 ⟨0, 0, 32, 32⟩ 16 16
      (by decide) (by decide) (by decide) (by decide) (by decide) (by decide) (by decide)⟩

theorem tileSet_length (o : AtlasObj) (i : Nat) (v : Option Rect) :
    (tileSet o i v).tiles.length = o.tiles.length := by
  simp [tileSet]

theorem tileGet_tileSet_ne (o : AtlasObj) {i j : Nat} (v : Option Rect) (hne : i ≠ j) :
    tileGet (tileSet o i v) j = tileGet o j := by
  simp only [tileGet, tileSet]
  rw [List.getD_eq_getD_get?, List.getD_eq_getD_get?, List.get?_set_ne _ _ hne]

theorem tileGet_tileSet_eq (o : AtlasObj) {i : Nat} (v : Option Rect) (hi : i < o.tiles.length) :
    tileGet (tileSet o i v) i = v := by
  simp only [tileGet, tileSet]
  rw [List.getD_eq_getD_get?, List.get?_set_eq_of_lt v hi]
  rfl

theorem processFace_not_masked (frame i : Nat) (f : FaceInput) (s : FaceLoopState)
    (hm : f.inMask = false) : processFace frame i f s = s := by
  simp [processFace, hm]

theorem processFace_small_none (frame i : Nat) (f : FaceInput) (s : FaceLoopState)
    (hm : f.inMask = true) (hr : f.tileRes < 4) (ho : s.obj = none) :
    processFace frame i f s = s := by
  simp [processFace, hm, hr, ho]

theorem processFace_small_noTile (frame i : Nat) (f : FaceInput) (s : FaceLoopState)
    (o : AtlasObj) (hm : f.inMask = true) (hr : f.tileRes < 4) (ho : s.obj = some o)
    (ht : tileGet o i = none) : processFace frame i f s = s := by
  simp [processFace, hm, hr, ho, ht]

theorem processFace_small_tile (frame i : Nat) (f : FaceInput) (s : FaceLoopState)
    (o : AtlasObj) (r : Rect) (hm : f.inMask = true) (hr : f.tileRes < 4)
    (ho : s.obj = some o) (ht : tileGet o i = some r) :
    processFace frame i f s
      = { s with obj := some (tileSet o i none), tree := freeRect r s.tree } := by
  simp [processFace, hm, hr, ho, ht]

theorem processFace_reuse (frame i : Nat) (f : FaceInput) (s : FaceLoopState)
    (o : AtlasObj) (r : Rect) (hm : f.inMask = true) (hr : ¬f.tileRes < 4)
    (ho : s.obj = some o) (ht : tileGet o i = some r)
    (hband : ((alignedTileRes f.tileRes : Int) - (r.w : Int)).natAbs < 32) :
    processFace frame i f s = { s with anyTile := true } := by
  simp [processFace, hm, hr, ho, ht, hband]

theorem processFace_refit (frame i : Nat) (f : FaceInput) (s : FaceLoopState)
    (o : AtlasObj) (r : Rect) (hm : f.inMask = true) (hr : ¬f.tileRes < 4)
    (ho : s.obj = some o) (ht : tileGet o i = some r)
    (hband : ¬((alignedTileRes f.tileRes : Int) - (r.w : Int)).natAbs < 32) :
    processFace frame i f s
      = faceInsert frame i (alignedTileRes f.tileRes) { s with tree := freeRect r s.tree } := by
  simp [processFace, hm, hr, ho, ht, hband]

theorem processFace_no_tile (frame i : Nat) (f : FaceInput) (s : FaceLoopState)
    (o : AtlasObj) (hm : f.inMask = true) (hr : ¬f.tileRes < 4) (ho : s.obj = some o)
    (ht : tileGet o i = none) :
    processFace frame i f s = faceInsert frame i (alignedTileRes f.tileRes) s := by
  simp [processFace, hm, hr, ho, ht]

theorem processFace_new_obj (frame i : Nat) (f : FaceInput) (s : FaceLoopState)
    (hm : f.inMask = true) (hr : ¬f.tileRes < 4) (ho : s.obj = none) :
    processFace frame i f s = faceInsert frame i (alignedTileRes f.tileRes) s := by
  simp [processFace, hm, hr, ho]

theorem faceInsert_success {frame i res : Nat} {s : FaceLoopState} {a : Rect} {t' : PackTree}
    (hins : insert res res s.tree = some (a, t')) :
    faceInsert frame i res s
      = { s with
          obj := some (tileSet (s.obj.getD emptyObj) i (some a)),
          tree := t',
          anyTile := true,
          dirty := true } := by
  simp [faceInsert, hins]

theorem faceInsert_fail {frame i res : Nat} {s : FaceLoopState}
    (hins : insert res res s.tree = none) :
    faceInsert frame i res s
      = { s with
          obj := s.obj.map (fun o => tileSet o i none),
          insertFail := frame } := by
  simp [faceInsert, hins]

theorem inMask_true_of_not_false {f : FaceInput} (hm : ¬f.inMask = false) : f.inMask = true := by
  revert hm
  cases f.inMask <;> simp

theorem processFace_anyTile_mono (frame i : Nat) (f : FaceInput) (s : FaceLoopState)
    (h : s.anyTile = true) : (processFace frame i f s).anyTile = true := by
  by_cases hm : f.inMask = false
  · rw [processFace_not_masked frame i f s hm]
    exact h
  · have hm' := inMask_true_of_not_false hm
    have hfi : ∀ s' : FaceLoopState, s'.anyTile = true →
        (faceInsert frame i (alignedTileRes f.tileRes) s').anyTile = true := by
      intro s' h'
      cases hins : insert (alignedTileRes f.tileRes) (alignedTileRes f.tileRes) s'.tree with
      | some p =>
        obtain ⟨a, t'⟩ := p
        rw [faceInsert_success hins]
      | none =>
        rw [faceInsert_fail hins]
        exact h'
    by_cases hr : f.tileRes < 4
    · cases ho : s.obj with
      | none =>
        rw [processFace_small_none frame i f s hm' hr ho]
        exact h
      | some o =>
        cases ht : tileGet o i with
        | none =>
          rw [processFace_small_noTile frame i f s o hm' hr ho ht]
          exact h
        | some r =>
          rw [processFace_small_tile frame i f s o r hm' hr ho ht]
          exact h
    · cases ho : s.obj with
      | none =>
        rw [processFace_new_obj frame i f s hm' hr ho]
        exact hfi s h
      | some o =>
        cases ht : tileGet o i with
        | none =>
          rw [processFace_no_tile frame i f s o hm' hr ho ht]
          exact hfi s h
        | some r =>
          by_cases hband : ((alignedTileRes f.tileRes : Int) - (r.w : Int)).natAbs < 32
          · rw [processFace_reuse frame i f s o r hm' hr ho ht hband]
          · rw [processFace_refit frame i f s o r hm' hr ho ht hband]
            exact hfi _ h

theorem processFace_obj_none (frame i : Nat) (f : FaceInput) (s : FaceLoopState)
    (h : s.obj = none) :
    (processFace frame i f s).obj = none ∨
    (∃ o', (processFace frame i f s).obj = some o' ∧ o'.tiles.length = 6 ∧
      (processFace frame i f s).anyTile = true) := by
  by_cases hm : f.inMask = false
  · rw [processFace_not_masked frame i f s hm]
    exact Or.inl h
  · have hm' := inMask_true_of_not_false hm
    by_cases hr : f.tileRes < 4
    · rw [processFace_small_none frame i f s hm' hr h]
      exact Or.inl h
    · rw [processFace_new_obj frame i f s hm' hr h]
      cases hins : insert (alignedTileRes f.tileRes) (alignedTileRes f.tileRes) s.tree with
      | some p =>
        obtain ⟨a, t'⟩ := p
        rw [faceInsert_success hins]
        refine Or.inr ⟨_, rfl, ?_, rfl⟩
        rw [h]
        simp [tileSet_length, emptyObj]
      | none =>
        rw [faceInsert_fail hins]
        exact Or.inl (by simp [h])

theorem processFace_obj_some (frame i : Nat) (f : FaceInput) (s : FaceLoopState) (o : AtlasObj)
    (ho : s.obj = some o) :
    ∃ o', (processFace frame i f s).obj = some o' ∧
      o'.lastFrameUsed = o.lastFrameUsed ∧ o'.tiles.length = o.tiles.length ∧
      ∀ j, j ≠ i → tileGet o' j = tileGet o j := by
  by_cases hm : f.inMask = false
  · rw [processFace_not_masked frame i f s hm, ho]
    exact ⟨o, rfl, rfl, rfl, fun _ _ => rfl⟩
  · have hm' := inMask_true_of_not_false hm
    have hfi : ∀ s' : FaceLoopState, s'.obj = some o →
        ∃ o', (faceInsert frame i (alignedTileRes f.tileRes) s').obj = some o' ∧
          o'.lastFrameUsed = o.lastFrameUsed ∧ o'.tiles.length = o.tiles.length ∧
          ∀ j, j ≠ i → tileGet o' j = tileGet o j := by
      intro s' ho'
      cases hins : insert (alignedTileRes f.tileRes) (alignedTileRes f.tileRes) s'.tree with
      | some p =>
        obtain ⟨a, t'⟩ := p
        rw [faceInsert_success hins]
        refine ⟨tileSet (s'.obj.getD emptyObj) i (some a), rfl, ?_, ?_, ?_⟩
        · rw [ho']
          rfl
        · rw [ho']
          exact tileSet_length o i (some a)
        · intro j hj
          rw [ho']
          exact tileGet_tileSet_ne o (some a) (fun hij => hj hij.symm)
      | none =>
        rw [faceInsert_fail hins]
        refine ⟨tileSet o i none, by rw [ho']; rfl, rfl, tileSet_length o i none, ?_⟩
        intro j hj
        exact tileGet_tileSet_ne o none (fun hij => hj hij.symm)
    by_cases hr : f.tileRes < 4
    · cases ht : tileGet o i with
      | none =>
        rw [processFace_small_noTile frame i f s o hm' hr ho ht, ho]
        exact ⟨o, rfl, rfl, rfl, fun _ _ => rfl⟩
      | some r =>
        rw [processFace_small_tile frame i f s o r hm' hr ho ht]
        refine ⟨tileSet o i none, rfl, rfl, tileSet_length o i none, ?_⟩
        intro j hj
        exact tileGet_tileSet_ne o none (fun hij => hj hij.symm)
    · cases ht : tileGet o i with
      | none =>
        rw [processFace_no_tile frame i f s o hm' hr ho ht]
        exact hfi s ho
      | some r =>
        by_cases hband : ((alignedTileRes f.tileRes : Int) - (r.w : Int)).natAbs < 32
        · rw [processFace_reuse frame i f s o r hm' hr ho ht hband, ho]
          exact ⟨o, rfl, rfl, rfl, fun _ _ => rfl⟩
        · rw [processFace_refit frame i f s o r hm' hr ho ht hband]
          exact hfi _ ho

theorem processFace_anyTile_slot (frame i : Nat) (f : FaceInput) (s : FaceLoopState)
    (hlen : ∀ o, s.obj = some o → o.tiles.length = 6) (hi : i < 6)
    (hP : s.anyTile = true → ∃ o j, s.obj = some o ∧ j < i ∧ (tileGet o j).isSome = true)
    (hA : (processFace frame i f s).anyTile = true) :
    ∃ o j, (processFace frame i f s).obj = some o ∧ j < i + 1 ∧
      (tileGet o j).isSome = true := by
  by_cases hany : s.anyTile = true
  · obtain ⟨o, j, ho, hj, hsome⟩ := hP hany
    obtain ⟨o', ho', _, _, hslots⟩ := processFace_obj_some frame i f s o ho
    refine ⟨o', j, ho', Nat.lt_succ_of_lt hj, ?_⟩
    rw [hslots j (Nat.ne_of_lt hj)]
    exact hsome
  · by_cases hm : f.inMask = false
    · rw [processFace_not_masked frame i f s hm] at hA
      exact absurd hA hany
    · have hm' := inMask_true_of_not_false hm
      have hfi : ∀ s' : FaceLoopState, s'.anyTile = s.anyTile →
          (∀ o, s'.obj = some o → o.tiles.length = 6) → s'.obj = s.obj →
          (faceInsert frame i (alignedTileRes f.tileRes) s').anyTile = true →
          ∃ o j, (faceInsert frame i (alignedTileRes f.tileRes) s').obj = some o ∧
            j < i + 1 ∧ (tileGet o j).isSome = true := by
        intro s' hany' hlen' _ hA'
        cases hins : insert (alignedTileRes f.tileRes) (alignedTileRes f.tileRes) s'.tree with
        | some p =>
          obtain ⟨a, t'⟩ := p
          rw [faceInsert_success hins]
          refine ⟨tileSet (s'.obj.getD emptyObj) i (some a), i, rfl, Nat.lt_succ_self i, ?_⟩
          rw [tileGet_tileSet_eq]
          · rfl
          · cases hob : s'.obj with
            | none => simpa [emptyObj] using hi
            | some ob =>
              rw [Option.getD_some, hlen' ob hob]
              exact hi
        | none =>
          rw [faceInsert_fail hins] at hA'
          rw [hany'] at hA'
          exact absurd hA' hany
      by_cases hr : f.tileRes < 4
      · cases ho : s.obj with
        | none =>
          rw [processFace_small_none frame i f s hm' hr ho] at hA
          exact absurd hA hany
        | some o =>
          cases ht : tileGet o i with
          | none =>
            rw [processFace_small_noTile frame i f s o hm' hr ho ht] at hA
            exact absurd hA hany
          | some r =>
            rw [processFace_small_tile frame i f s o r hm' hr ho ht] at hA
            exact absurd hA hany
      · cases ho : s.obj with
        | none =>
          rw [processFace_new_obj frame i f s hm' hr ho] at hA ⊢
          exact hfi s rfl hlen rfl hA
        | some o =>
          cases ht : tileGet o i with
          | none =>
            rw [processFace_no_tile frame i f s o hm' hr ho ht] at hA ⊢
            exact hfi s rfl hlen rfl hA
          | some r =>
            by_cases hband : ((alignedTileRes f.tileRes : Int) - (r.w : Int)).natAbs < 32
            · rw [processFace_reuse frame i f s o r hm' hr ho ht hband]
              exact ⟨o, i, ho, Nat.lt_succ_self i, by rw [ht]; rfl⟩
            · rw [processFace_refit frame i f s o r hm' hr ho ht hband] at hA ⊢
              exact hfi _ rfl hlen rfl hA

theorem processFaces_anyTile_mono (frame : Nat) :
    ∀ (faces : List FaceInput) (i : Nat) (s : FaceLoopState), s.anyTile = true →
    (processFaces frame i faces s).anyTile = true := by
  intro faces
  induction faces with
  | nil =>
    intro i s h
    exact h
  | cons f rest ih =>
    intro i s h
    exact ih (i + 1) _ (processFace_anyTile_mono frame i f s h)

theorem processFaces_obj_some (frame : Nat) :
    ∀ (faces : List FaceInput) (i : Nat) (s : FaceLoopState) (o : AtlasObj), s.obj = some o →
    ∃ o', (processFaces frame i faces s).obj = some o' ∧
      o'.lastFrameUsed = o.lastFrameUsed ∧ o'.tiles.length = o.tiles.length := by
  intro faces
  induction faces with
  | nil =>
    intro i s o ho
    exact ⟨o, ho, rfl, rfl⟩
  | cons f rest ih =>
    intro i s o ho
    obtain ⟨o1, ho1, hu1, hl1, _⟩ := processFace_obj_some frame i f s o ho
    obtain ⟨o2, ho2, hu2, hl2⟩ := ih (i + 1) _ o1 ho1
    exact ⟨o2, ho2, hu2.trans hu1, hl2.trans hl1⟩

theorem processFaces_obj_none (frame : Nat) :
    ∀ (faces : List FaceInput) (i : Nat) (s : FaceLoopState), s.obj = none →
    (processFaces frame i faces s).obj = none ∨
    (∃ o', (processFaces frame i faces s).obj = some o' ∧ o'.tiles.length = 6 ∧
      (processFaces frame i faces s).anyTile = true) := by
  intro faces
  induction faces with
  | nil =>
    intro i s h
    exact Or.inl h
  | cons f rest ih =>
    intro i s h
    rcases processFace_obj_none frame i f s h with hnone | ⟨o', ho', hlen', hany'⟩
    · exact ih (i + 1) _ hnone
    · obtain ⟨o2, ho2, _, hl2⟩ := processFaces_obj_some frame rest (i + 1) _ o' ho'
      refine Or.inr ⟨o2, ho2, hl2.trans hlen', ?_⟩
      exact processFaces_anyTile_mono frame rest (i + 1) _ hany'

theorem processFaces_anyTile_tile (frame : Nat) :
    ∀ (faces : List FaceInput) (i : Nat) (s : FaceLoopState),
    (∀ o, s.obj = some o → o.tiles.length = 6) →
    (s.anyTile = true → ∃ o j, s.obj = some o ∧ j < i ∧ (tileGet o j).isSome = true) →
    i + faces.length ≤ 6 →
    (processFaces frame i faces s).anyTile = true →
    ∃ o j, (processFaces frame i faces s).obj = some o ∧ (tileGet o j).isSome = true := by
  intro faces
  induction faces with
  | nil =>
    intro i s _ hP _ hA
    obtain ⟨o, j, ho, _, hs⟩ := hP hA
    exact ⟨o, j, ho, hs⟩
  | cons f rest ih =>
    intro i s hlen hP hle hA
    have hi : i < 6 := by
      simp only [List.length_cons] at hle
      omega
    refine ih (i + 1) (processFace frame i f s) ?_ ?_ ?_ hA
    · intro o' ho'
      cases ho : s.obj with
      | some o =>
        obtain ⟨o1, ho1, _, hl1, _⟩ := processFace_obj_some frame i f s o ho
        rw [ho1] at ho'
        injection ho' with he
        rw [← he]
        exact hl1.trans (hlen o ho)
      | none =>
        rcases processFace_obj_none frame i f s ho with hnone | ⟨o1, ho1, hl1, _⟩
        · rw [hnone] at ho'
          cases ho'
        · rw [ho1] at ho'
          injection ho' with he
          rw [← he]
          exact hl1
    · exact fun hA' => processFace_anyTile_slot frame i f s hlen hi hP hA'
    · simp only [List.length_cons] at hle
      omega

theorem cacheGet_mem {k : Nat} {objs : List (Nat × AtlasObj)} {o : AtlasObj}
    (h : cacheGet k objs = some o) : (k, o) ∈ objs := by
  induction objs with
  | nil => simp [cacheGet] at h
  | cons p rest ih =>
    obtain ⟨k1, v1⟩ := p
    by_cases hk : k1 = k
    · subst hk
      rw [show cacheGet k1 ((k1, v1) :: rest) = some v1 from by simp [cacheGet]] at h
      injection h with h
      rw [← h]
      exact List.mem_cons_self _ _
    · rw [show cacheGet k ((k1, v1) :: rest) = cacheGet k rest from by simp [cacheGet, hk]] at h
      exact List.mem_cons_of_mem _ (ih h)

theorem cacheSet_mem {k : Nat} {v : AtlasObj} {objs : List (Nat × AtlasObj)} {p : Nat × AtlasObj}
    (h : p ∈ cacheSet k v objs) : p = (k, v) ∨ p ∈ objs := by
  induction objs with
  | nil =>
    rw [show cacheSet k v [] = [(k, v)] from rfl] at h
    rcases List.mem_cons.mp h with h | h
    · exact Or.inl h
    · cases h
  | cons q rest ih =>
    obtain ⟨k1, v1⟩ := q
    by_cases hk : k1 = k
    · rw [show cacheSet k v ((k1, v1) :: rest) = (k, v) :: rest from by simp [cacheSet, hk]] at h
      rcases List.mem_cons.mp h with h | h
      · exact Or.inl h
      · exact Or.inr (List.mem_cons_of_mem _ h)
    · rw [show cacheSet k v ((k1, v1) :: rest) = (k1, v1) :: cacheSet k v rest from by
        simp [cacheSet, hk]] at h
      rcases List.mem_cons.mp h with h | h
      · right
        rw [h]
        exact List.mem_cons_self _ _
      · rcases ih h with h | h
        · exact Or.inl h
        · exact Or.inr (List.mem_cons_of_mem _ h)

theorem cacheGet_cacheSet_ne (k k2 : Nat) (v : AtlasObj) (objs : List (Nat × AtlasObj))
    (h : k2 ≠ k) : cacheGet k2 (cacheSet k v objs) = cacheGet k2 objs := by
  induction objs with
  | nil => simp [cacheSet, cacheGet, Ne.symm h]
  | cons q rest ih =>
    obtain ⟨k1, v1⟩ := q
    by_cases hk : k1 = k
    · subst hk
      simp [cacheSet, cacheGet, Ne.symm h]
    · simp [cacheSet, cacheGet, hk, ih]

theorem rasterizeActor_objects (frame k : Nat) (faces : List FaceInput) (isStatic : Bool)
    (idHash : Nat) (st : RasterState) (s1 : FaceLoopState)
    (hs1 : processFaces frame 0 faces
      ⟨cacheGet k st.objects, st.tree, st.insertFail, false, false⟩ = s1) :
    (s1.obj = none ∧ (rasterizeActor frame k faces isStatic idHash st).objects = st.objects) ∨
    (∃ o, s1.obj = some o ∧ s1.anyTile = false ∧
      (rasterizeActor frame k faces isStatic idHash st).objects = cacheSet k o st.objects) ∨
    (∃ o d, s1.obj = some o ∧ s1.anyTile = true ∧
      (rasterizeActor frame k faces isStatic idHash st).objects
        = cacheSet k { o with lastFrameUsed := frame, lastFrameDirty := d } st.objects) := by
  cases ho : s1.obj with
  | none =>
    left
    refine ⟨rfl, ?_⟩
    simp [rasterizeActor, hs1, ho]
  | some o =>
    by_cases hany : s1.anyTile = false
    · right
      left
      refine ⟨o, rfl, hany, ?_⟩
      simp [rasterizeActor, hs1, ho, hany]
    · right
      right
      have hany' : s1.anyTile = true := by
        revert hany
        cases s1.anyTile <;> simp
      refine ⟨o, if (s1.dirty || decide (redrawPeriod isStatic idHash ≤ frame - o.lastFrameDirty))
        then frame else o.lastFrameDirty, rfl, hany', ?_⟩
      simp [rasterizeActor, hs1, ho, hany']

theorem rasterizeActor_inv (frame k : Nat) (faces : List FaceInput) (isStatic : Bool)
    (idHash : Nat) (st : RasterState) (hfaces : faces.length ≤ 6)
    (hlen : ∀ p ∈ st.objects, (Prod.snd p).tiles.length = 6)
    (hQ : ∀ p ∈ st.objects, (Prod.snd p).lastFrameUsed = frame →
      ∃ j, (tileGet (Prod.snd p) j).isSome = true)
    (hK : ∀ o, cacheGet k st.objects = some o → o.lastFrameUsed ≠ frame) :
    (∀ p ∈ (rasterizeActor frame k faces isStatic idHash st).objects,
      (Prod.snd p).tiles.length = 6) ∧
    (∀ p ∈ (rasterizeActor frame k faces isStatic idHash st).objects,
      (Prod.snd p).lastFrameUsed = frame → ∃ j, (tileGet (Prod.snd p) j).isSome = true) ∧
    (∀ k2, k2 ≠ k → cacheGet k2 (rasterizeActor frame k faces isStatic idHash st).objects
      = cacheGet k2 st.objects) := by
  have hlen0 : ∀ ob, (⟨cacheGet k st.objects, st.tree, st.insertFail, false, false⟩
      : FaceLoopState).obj = some ob → ob.tiles.length = 6 := by
    intro ob hob
    exact hlen (k, ob) (cacheGet_mem hob)
  have hchar : ∀ o', (processFaces frame 0 faces
      ⟨cacheGet k st.objects, st.tree, st.insertFail, false, false⟩).obj = some o' →
      o'.tiles.length = 6 ∧
      ((processFaces frame 0 faces
        ⟨cacheGet k st.objects, st.tree, st.insertFail, false, false⟩).anyTile = true ∨
        o'.lastFrameUsed ≠ frame) := by
    intro o' ho'
    cases hg : cacheGet k st.objects with
    | none =>
      rw [hg] at ho'
      rcases processFaces_obj_none frame faces 0
          ⟨none, st.tree, st.insertFail, false, false⟩ rfl with hn | ⟨o2, ho2, hl2, ha2⟩
      · rw [hn] at ho'
        cases ho'
      · rw [ho2] at ho'
        injection ho' with he
        exact ⟨he ▸ hl2, Or.inl ha2⟩
    | some o0 =>
      rw [hg] at ho'
      obtain ⟨o2, ho2, hu2, hl2⟩ := processFaces_obj_some frame faces 0
        ⟨some o0, st.tree, st.insertFail, false, false⟩ o0 rfl
      rw [ho2] at ho'
      injection ho' with he
      constructor
      · rw [← he]
        exact hl2.trans (hlen (k, o0) (cacheGet_mem hg))
      · right
        rw [← he, hu2]
        exact hK o0 hg
  rcases rasterizeActor_objects frame k faces isStatic idHash st _ rfl with
    ⟨hnone, hobjs⟩ | ⟨o, ho, hany, hobjs⟩ | ⟨o, d, ho, hany, hobjs⟩
  · rw [hobjs]
    exact ⟨hlen, hQ, fun k2 _ => rfl⟩
  · obtain ⟨hl6, hor⟩ := hchar o ho
    have hstale : o.lastFrameUsed ≠ frame := by
      rcases hor with ha | hs
      · rw [hany] at ha
        cases ha
      · exact hs
    rw [hobjs]
    refine ⟨?_, ?_, ?_⟩
    · intro p hp
      rcases cacheSet_mem hp with he | hm
      · rw [he]
        exact hl6
      · exact hlen p hm
    · intro p hp hf
      rcases cacheSet_mem hp with he | hm
      · exfalso
        apply hstale
        rw [he] at hf
        exact hf
      · exact hQ p hm hf
    · intro k2 hk2
      exact cacheGet_cacheSet_ne k k2 o st.objects hk2
  · obtain ⟨hl6, _⟩ := hchar o ho
    obtain ⟨ob, j, hob, hjs⟩ := processFaces_anyTile_tile frame faces 0
      ⟨cacheGet k st.objects, st.tree, st.insertFail, false, false⟩ hlen0
      (by intro hcontra; simp at hcontra) (by omega) hany
    rw [ho] at hob
    injection hob with he
    have hjo : (tileGet o j).isSome = true := by
      rw [he]
      exact hjs
    rw [hobjs]
    refine ⟨?_, ?_, ?_⟩
    · intro p hp
      rcases cacheSet_mem hp with he2 | hm
      · rw [he2]
        exact hl6
      · exact hlen p hm
    · intro p hp hf
      rcases cacheSet_mem hp with he2 | hm
      · refine ⟨j, ?_⟩
        rw [he2]
        exact hjo
      · exact hQ p hm hf
    · intro k2 hk2
      exact cacheGet_cacheSet_ne k k2 _ st.objects hk2

/-- One proposed object of the frame's scene iteration: its cache handle,
the 6 face inputs, the static-lightmap flag, and the actor identifier hash
(`GetID().D`). -/
structure ActorInput where
  key : Nat
  faces : List FaceInput
  isStatic : Bool
  idHash : Nat
deriving DecidableEq

/-- The scene-proposal phase of `Render`: each proposed actor's `Draw`
reaches `RasterizeActor` once. -/
def runActors (frame : Nat) (actors : List ActorInput) (st : RasterState) : RasterState :=
  match actors with
  | [] => st
  | a :: rest => runActors frame rest (rasterizeActor frame a.key a.faces a.isStatic a.idHash st)

/-- One frame of `Render` over the cache: the proposal phase followed by
the removal pass. -/
def runFrame (frame : Nat) (actors : List ActorInput) (st : RasterState) : RasterState :=
  { runActors frame actors st with
    objects := (sweepObjects frame (runActors frame actors st).objects
      (runActors frame actors st).tree).1,
    tree := (sweepObjects frame (runActors frame actors st).objects
      (runActors frame actors st).tree).2 }

theorem runActors_inv (frame : Nat) :
    ∀ (actors : List ActorInput) (st : RasterState),
    (∀ a ∈ actors, a.faces.length ≤ 6) →
    (∀ p ∈ st.objects, (Prod.snd p).tiles.length = 6) →
    (∀ p ∈ st.objects, (Prod.snd p).lastFrameUsed = frame →
      ∃ j, (tileGet (Prod.snd p) j).isSome = true) →
    (∀ a ∈ actors, ∀ o, cacheGet a.key st.objects = some o → o.lastFrameUsed ≠ frame) →
    (actors.map ActorInput.key).Nodup →
    ∀ p ∈ (runActors frame actors st).objects, (Prod.snd p).lastFrameUsed = frame →
      ∃ j, (tileGet (Prod.snd p) j).isSome = true := by
  intro actors
  induction actors with
  | nil =>
    intro st _ _ hQ _ _
    exact hQ
  | cons a rest ih =>
    intro st hfaces hlen hQ hK hnd
    obtain ⟨hlen', hQ', hne'⟩ := rasterizeActor_inv frame a.key a.faces a.isStatic a.idHash st
      (hfaces a (List.mem_cons_self _ _)) hlen hQ (hK a (List.mem_cons_self _ _))
    simp only [List.map_cons, List.nodup_cons] at hnd
    refine ih _ (fun a' ha' => hfaces a' (List.mem_cons_of_mem _ ha')) hlen' hQ' ?_ hnd.2
    intro a' ha' o hg
    have hne : a'.key ≠ a.key := by
      intro hcontra
      apply hnd.1
      rw [← hcontra]
      exact List.mem_map_of_mem ActorInput.key ha'
    rw [hne' a'.key hne] at hg
    exact hK a' (List.mem_cons_of_mem _ ha') o hg

/-- Claim C7: after the per-frame removal pass, every object entry still in
the cache has at least one non-null tile slot (so an entry exists only with
a live tile; entries are created lazily on a first successful insertion,
and an entry whose slots all became null does not survive the frame),
provided each proposed object is rasterized once and no entry was already
stamped with the current frame. -/
theorem cache_entries_have_live_tile (frame : Nat) (actors : List ActorInput) (st : RasterState)
    (hfaces : ∀ a ∈ actors, a.faces.length ≤ 6)
    (hlen : ∀ p ∈ st.objects, (Prod.snd p).tiles.length = 6)
    (hfresh : ∀ p ∈ st.objects, (Prod.snd p).lastFrameUsed ≠ frame)
    (hnd : (actors.map ActorInput.key).Nodup) :
    ∀ k o, (k, o) ∈ (runFrame frame actors st).objects →
      ∃ j, (tileGet o j).isSome = true := by
  intro k o hmem
  have hQ0 : ∀ p ∈ st.objects, (Prod.snd p).lastFrameUsed = frame →
      ∃ j, (tileGet (Prod.snd p) j).isSome = true := by
    intro p hp hf
    exact absurd hf (hfresh p hp)
  have hK0 : ∀ a ∈ actors, ∀ o2, cacheGet a.key st.objects = some o2 →
      o2.lastFrameUsed ≠ frame := by
    intro a _ o2 hg
    exact hfresh (a.key, o2) (cacheGet_mem hg)
  have hQ := runActors_inv frame actors st hfaces hlen hQ0 hK0 hnd
  simp only [runFrame] at hmem
  obtain ⟨hm1, hf1⟩ := sweep_mem hmem
  exact hQ (k, o) hm1 hf1

theorem cache_entries_have_live_tile_witness :
    (∀ a ∈ [ActorInput.mk 1 [FaceInput.mk true 100] false 0], a.faces.length ≤ 6) ∧
    (∀ p ∈ (RasterState.mk [] (.leaf ⟨0, 0, 256, 256⟩ false) 0 []).objects,
      (Prod.snd p).tiles.length = 6) ∧
    (∀ p ∈ (RasterState.mk [] (.leaf ⟨0, 0, 256, 256⟩ false) 0 []).objects,
      (Prod.snd p).lastFrameUsed ≠ 1) ∧
    (([ActorInput.mk 1 [FaceInput.mk true 100] false 0].map ActorInput.key).Nodup) ∧
    (∀ k o, (k, o) ∈ (runFrame 1 [ActorInput.mk 1 [FaceInput.mk true 100] false 0]
        (RasterState.mk [] (.leaf ⟨0, 0, 256, 256⟩ false) 0 [])).objects →
      ∃ j, (tileGet o j).isSome = true) :=
  ⟨by decide, by simp, by simp, by decide,
    cache_entries_have_live_tile 1 [ActorInput.mk 1 [FaceInput.mk true 100] false 0]
      (RasterState.mk [] (.leaf ⟨0, 0, 256, 256⟩ false) 0 [])
      (by decide) (by simp) (by simp) (by decide)⟩

/-- The per-view cache state of `GlobalSurfaceAtlasCustomBuffer`: atlas
resolution, the `LastFrameAtlasInsertFail` and
`LastFrameAtlasDefragmentation` stamps, the object cache, the packer root
(`AtlasTiles`, `none` when deleted), the readback slot index
(`none` models `-1`) and the culled-objects GPU buffer size. -/
structure AtlasState where
  resolution : Nat
  lastFrameAtlasInsertFail : Nat
  lastFrameAtlasDefragmentation : Nat
  objects : List (Nat × AtlasObj)
  atlasTiles : Option PackTree
  culledObjectsCounterIndex : Option Nat
  culledObjectsBufferSize : Nat
deriving DecidableEq

/-- Model of `GlobalSurfaceAtlasCustomBuffer::ClearObjects` (lines 151-157): reset
the readback slot, stamp the defragmentation frame, delete the packer tree
and clear the object cache. `Clear` (lines 159-168) additionally releases
the atlas textures and ends in `ClearObjects`; the culled-objects buffer is
not touched by either. -/
def clearObjects (frame : Nat) (s : AtlasState) : AtlasState :=
  { s with
    culledObjectsCounterIndex := none,
    lastFrameAtlasDefragmentation := frame,
    atlasTiles := none,
    objects := [] }

/-- The cache-maintenance prologue of `Render` (lines 348-394): on a
resolution change the whole buffer is cleared (`Clear` ends in
`ClearObjects`); otherwise a defragmentation runs when an insertion failed
within the last 10 frames and none ran within the last 60; finally a fresh
packer root spanning the atlas is allocated when absent. -/
def renderMaintenance (frame resolution : Nat) (s : AtlasState) : AtlasState :=
  let s1 :=
    if s.resolution ≠ resolution then
      { clearObjects frame s with resolution := resolution }
    else if frame - s.lastFrameAtlasInsertFail < 10 ∧
        frame - s.lastFrameAtlasDefragmentation > 60 then
      clearObjects frame s
    else s
  { s1 with atlasTiles := some (s1.atlasTiles.getD (.leaf ⟨0, 0, resolution, resolution⟩ false)) }

/-- Claim C2: at an unchanged resolution, if an insertion failure was
recorded within the last 10 frames and no full defragmentation happened
within the last 60 frames, `Render` clears the entire object cache and the
packer tree and stamps the current frame as the defragmentation frame;
consequently, for a synthetic failure at frame `F` with no prior
defragmentation in `[F - 60, F]`, the pass at frame `F + 1` — within 10
frames of `F` — performs the clear. -/
theorem defrag_trigger_clears_cache (res frame fFail : Nat) (s : AtlasState)
    (hres : s.resolution = res) :
    (frame - s.lastFrameAtlasInsertFail < 10 → frame - s.lastFrameAtlasDefragmentation > 60 →
      (renderMaintenance frame res s).objects = [] ∧
      (renderMaintenance frame res s).lastFrameAtlasDefragmentation = frame ∧
      (renderMaintenance frame res s).atlasTiles = some (.leaf ⟨0, 0, res, res⟩ false)) ∧
    (s.lastFrameAtlasInsertFail = fFail → s.lastFrameAtlasDefragmentation + 60 < fFail →
      fFail + 1 ≤ fFail + 10 ∧
      (renderMaintenance (fFail + 1) res s).objects = [] ∧
      (renderMaintenance (fFail + 1) res s).lastFrameAtlasDefragmentation = fFail + 1 ∧
      (renderMaintenance (fFail + 1) res s).atlasTiles = some (.leaf ⟨0, 0, res, res⟩ false)) := by
  have hres' : ¬s.resolution ≠ res := by simp [hres]
  constructor
  · intro h1 h2
    refine ⟨?_, ?_, ?_⟩ <;> simp [renderMaintenance, hres', h1, h2, clearObjects]
  · intro hf hd
    have h1 : (fFail + 1) - s.lastFrameAtlasInsertFail < 10 := by omega
    have h2 : (fFail + 1) - s.lastFrameAtlasDefragmentation > 60 := by omega
    refine ⟨by omega, ?_, ?_, ?_⟩ <;> simp [renderMaintenance, hres', h1, h2, clearObjects]

theorem defrag_trigger_clears_cache_witness :
    (AtlasState.mk 256 100 30 [(1, AtlasObj.mk 99 98 [none, none, none, none, none, none])]
        (some (.leaf ⟨0, 0, 256, 256⟩ false)) (some 0) 4096).resolution = 256 ∧
    ((101 - (AtlasState.mk 256 100 30 [(1, AtlasObj.mk 99 98 [none, none, none, none, none, none])]
          (some (.leaf ⟨0, 0, 256, 256⟩ false)) (some 0) 4096).lastFrameAtlasInsertFail < 10 →
      101 - (AtlasState.mk 256 100 30 [(1, AtlasObj.mk 99 98 [none, none, none, none, none, none])]
          (some (.leaf ⟨0, 0, 256, 256⟩ false)) (some 0) 4096).lastFrameAtlasDefragmentation > 60 →
      (renderMaintenance 101 256 (AtlasState.mk 256 100 30
          [(1, AtlasObj.mk 99 98 [none, none, none, none, none, none])]
          (some (.leaf ⟨0, 0, 256, 256⟩ false)) (some 0) 4096)).objects = [] ∧
      (renderMaintenance 101 256 (AtlasState.mk 256 100 30
          [(1, AtlasObj.mk 99 98 [none, none, none, none, none, none])]
          (some (.leaf ⟨0, 0, 256, 256⟩ false)) (some 0) 4096)).lastFrameAtlasDefragmentation = 101 ∧
      (renderMaintenance 101 256 (AtlasState.mk 256 100 30
          [(1, AtlasObj.mk 99 98 [none, none, none, none, none, none])]
          (some (.leaf ⟨0, 0, 256, 256⟩ false)) (some 0) 4096)).atlasTiles
        = some (.leaf ⟨0, 0, 256, 256⟩ false)) ∧
    ((AtlasState.mk 256 100 30 [(1, AtlasObj.mk 99 98 [none, none, none, none, none, none])]
        (some (.leaf ⟨0, 0, 256, 256⟩ false)) (some 0) 4096).lastFrameAtlasInsertFail = 100 →
      (AtlasState.mk 256 100 30 [(1, AtlasObj.mk 99 98 [none, none, none, none, none, none])]
        (some (.leaf ⟨0, 0, 256, 256⟩ false)) (some 0) 4096).lastFrameAtlasDefragmentation + 60 < 100 →
      100 + 1 ≤ 100 + 10 ∧
      (renderMaintenance (100 + 1) 256 (AtlasState.mk 256 100 30
          [(1, AtlasObj.mk 99 98 [none, none, none, none, none, none])]
          (some (.leaf ⟨0, 0, 256, 256⟩ false)) (some 0) 4096)).objects = [] ∧
      (renderMaintenance (100 + 1) 256 (AtlasState.mk 256 100 30
          [(1, AtlasObj.mk 99 98 [none, none, none, none, none, none])]
          (some (.leaf ⟨0, 0, 256, 256⟩ false)) (some 0) 4096)).lastFrameAtlasDefragmentation = 100 + 1 ∧
      (renderMaintenance (100 + 1) 256 (AtlasState.mk 256 100 30
          [(1, AtlasObj.mk 99 98 [none, none, none, none, none, none])]
          (some (.leaf ⟨0, 0, 256, 256⟩ false)) (some 0) 4096)).atlasTiles
        = some (.leaf ⟨0, 0, 256, 256⟩ false))) :=
  ⟨rfl, defrag_trigger_clears_cache 256 101 100 (AtlasState.mk 256 100 30
    [(1, AtlasObj.mk 99 98 [none, none, none, none, none, none])]
    (some (.leaf ⟨0, 0, 256, 256⟩ false)) (some 0) 4096) rfl⟩

/-- Size of a `Float4` in bytes (`sizeof(Float4)`). -/
def float4Size : Nat := 16

/-- The culled-objects counter readback of `Render` (lines 626-654):
`counterIndex` models `CulledObjectsCounterIndex` (`none` for `-1`),
`readback` the mapped staging buffer contents (`none` when `Map` yields no
data). Returns the `notReady` flag and the capacity request derived from
the counter, falling back to the heuristic `defaultCapacity`. -/
def cullReadback (defaultCapacity : Nat) (counterIndex : Option Nat)
    (readback : Option (List Nat)) : Bool × Nat :=
  match counterIndex with
  | some i =>
    match readback with
    | some data =>
      if 0 < data.getD i 0 then (false, data.getD i 0 * float4Size)
      else (true, defaultCapacity)
    | none => (true, defaultCapacity)
  | none => (true, defaultCapacity)

/-- Claim C9: the not-ready flag of the culling phase is true exactly when
no completed non-zero counter sample exists (no ring slot assigned, the
staging mapping unavailable, or only a zero counter value); staleness is
reported through this flag, never as an error, and with a completed
non-zero sample the flag is false and the counter scaled to bytes is the
culled-objects capacity target. -/
theorem cull_readback_not_ready_iff (d : Nat) (ci : Option Nat) (rb : Option (List Nat)) :
    ((cullReadback d ci rb).1 = true ↔
      ∀ i data, ci = some i → rb = some data → data.getD i 0 = 0) ∧
    (∀ i data, ci = some i → rb = some data → 0 < data.getD i 0 →
      cullReadback d ci rb = (false, data.getD i 0 * float4Size)) := by
  constructor
  · cases ci with
    | none => simp [cullReadback]
    | some i =>
      cases rb with
      | none => simp [cullReadback]
      | some data =>
        by_cases hc : 0 < data.getD i 0
        · simp only [cullReadback, hc, if_true]
          constructor
          · intro hcontra
            cases hcontra
          · intro hall
            have := hall i data rfl rfl
            omega
        · simp only [cullReadback, hc, if_false]
          constructor
          · intro _ i2 data2 hi2 hd2
            injection hi2 with hi2
            injection hd2 with hd2
            subst hi2
            subst hd2
            omega
          · intro _
            trivial
  · intro i data hci hrb hc
    subst hci
    subst hrb
    simp only [cullReadback]
    rw [if_pos hc]

theorem cull_readback_not_ready_iff_witness :
    ((cullReadback 4096 (some 0) (some [7])).1 = true ↔
      ∀ i data, (some 0 : Option Nat) = some i → (some [7] : Option (List Nat)) = some data →
        data.getD i 0 = 0) ∧
    (∀ i data, (some 0 : Option Nat) = some i → (some [7] : Option (List Nat)) = some data →
      0 < data.getD i 0 →
      cullReadback 4096 (some 0) (some [7]) = (false, data.getD i 0 * float4Size)) :=
  cull_readback_not_ready_iff 4096 (some 0) (some [7])

/-- The largest signed 32-bit value, `MAX_int32`. -/
def MAX_int32 : Nat := 2147483647

/-- Modelled from the spec: `Math::AlignUp(v, 4096u)` (engine utility not
under `src/`) aligns the requested capacity up to a multiple of 4096
bytes. -/
def alignUp4096 (v : Nat) : Nat := (v + 4095) / 4096 * 4096

/-- The culled-objects buffer allocation of `Render` (lines 663-672): the
request is aligned up to 4096 and capped at `MAX_int32`; the buffer is
re-initialized at the capped request only when its current size is
strictly smaller, and it is never shrunk. -/
def updateCulledBufferSize (currentSize request : Nat) : Nat :=
  if currentSize < min (alignUp4096 request) MAX_int32 then
    min (alignUp4096 request) MAX_int32
  else currentSize

/-- Input of one `Render` frame for the buffer-size model: the frame
number, the configured resolution, the frame's requested capacity, and
whether the culling phase runs (objects exist). -/
structure FrameInput where
  frame : Nat
  resolution : Nat
  request : Nat
  hasObjects : Bool
deriving DecidableEq

/-- One frame of `Render` over the atlas state: cache maintenance
(resolution change / defragmentation) followed, when the cache is
non-empty, by the culled-objects buffer allocation. -/
def renderFrame (s : AtlasState) (inp : FrameInput) : AtlasState :=
  let s1 := renderMaintenance inp.frame inp.resolution s
  if inp.hasObjects then
    { s1 with culledObjectsBufferSize :=
        updateCulledBufferSize s1.culledObjectsBufferSize inp.request }
  else s1

theorem renderMaintenance_bufferSize (frame res : Nat) (s : AtlasState) :
    (renderMaintenance frame res s).culledObjectsBufferSize = s.culledObjectsBufferSize := by
  by_cases h1 : s.resolution ≠ res
  · simp [renderMaintenance, clearObjects, h1]
  · by_cases h2 : frame - s.lastFrameAtlasInsertFail < 10 ∧
        frame - s.lastFrameAtlasDefragmentation > 60
    · simp [renderMaintenance, clearObjects, h1, h2]
    · simp [renderMaintenance, clearObjects, h1, h2]

theorem updateCulledBufferSize_le (size req : Nat) :
    size ≤ updateCulledBufferSize size req := by
  unfold updateCulledBufferSize
  split
  · omega
  · exact Nat.le_refl size

theorem renderFrame_mono (s : AtlasState) (inp : FrameInput) :
    s.culledObjectsBufferSize ≤ (renderFrame s inp).culledObjectsBufferSize := by
  unfold renderFrame
  by_cases h : inp.hasObjects = true
  · simp only [h, if_true]
    calc s.culledObjectsBufferSize
        = (renderMaintenance inp.frame inp.resolution s).culledObjectsBufferSize :=
          (renderMaintenance_bufferSize inp.frame inp.resolution s).symm
      _ ≤ _ := updateCulledBufferSize_le _ inp.request
  · simp only [h, if_false]
    exact (renderMaintenance_bufferSize inp.frame inp.resolution s).ge

/-- Claim C10: across every sequence of frames within one lifetime of the
pass, the culled-objects buffer size is monotonically non-decreasing —
each frame's request is aligned up to a multiple of 4096 bytes and capped
at `MAX_int32`, the buffer grows only when strictly smaller than the
capped aligned request, and it is never shrunk, not even by a resolution
change or a defragmentation. -/
theorem culled_buffer_size_monotone (s : AtlasState) (frames : List FrameInput) :
    s.culledObjectsBufferSize ≤ (frames.foldl renderFrame s).culledObjectsBufferSize ∧
    (∀ size req, size ≤ updateCulledBufferSize size req ∧
      (updateCulledBufferSize size req ≠ size ↔
        size < min (alignUp4096 req) MAX_int32)) := by
  constructor
  · induction frames generalizing s with
    | nil => exact Nat.le_refl _
    | cons inp rest ih =>
      simp only [List.foldl_cons]
      exact Nat.le_trans (renderFrame_mono s inp) (ih (renderFrame s inp))
  · intro size req
    refine ⟨updateCulledBufferSize_le size req, ?_⟩
    unfold updateCulledBufferSize
    split
    · rename_i h
      constructor
      · intro _
        exact h
      · intro _
        omega
    · rename_i h
      constructor
      · intro hne
        exact absurd rfl hne
      · intro hlt
        exact absurd hlt h

theorem culled_buffer_size_monotone_witness :
    (AtlasState.mk 256 0 0 [] (some (.leaf ⟨0, 0, 256, 256⟩ false)) none 4096).culledObjectsBufferSize
      ≤ ([FrameInput.mk 2 512 9000 true, FrameInput.mk 3 512 100 true].foldl renderFrame
        (AtlasState.mk 256 0 0 [] (some (.leaf ⟨0, 0, 256, 256⟩ false)) none 4096)).culledObjectsBufferSize ∧
    (∀ size req, size ≤ updateCulledBufferSize size req ∧
      (updateCulledBufferSize size req ≠ size ↔
        size < min (alignUp4096 req) MAX_int32)) :=
  culled_buffer_size_monotone (AtlasState.mk 256 0 0 [] (some (.leaf ⟨0, 0, 256, 256⟩ false)) none 4096)
    [FrameInput.mk 2 512 9000 true, FrameInput.mk 3 512 100 true]

end FlaxAtlas
